import Mathlib

/-!
Verification of the SkillIssue-finder issue matching service: a shallow
embedding of the Python sources (skill_extractor.py, github_analyzer.py,
issue_matcher.py, mcp_server.py, models.py) together with proofs about the
scoring, ranking, deduplication and profile analysis logic.

Python strings are modelled as Lean `String`; text processing works on the
underlying character lists (`Char.toLower` models `str.lower` on the ASCII
range, which covers every string literal appearing in the sources). Floats
produced by the scorer are finite sums of halves and small integers, which
float addition represents exactly, so scores are modelled by `ℚ`. Python
sets are modelled by `Finset` or by an explicit seen-list, matching the
source operation by operation.
-/

/-- Lower-case a string character by character (Python `str.lower`). -/
def strLower (s : String) : String := String.mk (s.data.map Char.toLower)

/-- Lower-case a character list. -/
def lowersL (cs : List Char) : List Char := cs.map Char.toLower

/-- `isPrefL needle hay`: the first list is an initial segment of the second. -/
def isPrefL : List Char → List Char → Bool
  | [], _ => true
  | _ :: _, [] => false
  | a :: as, b :: bs => a == b && isPrefL as bs

/-- Python substring test `needle in hay` on character lists
(`"" in s` is `True` in Python, mirrored here). -/
def inL (needle : List Char) : List Char → Bool
  | [] => needle.isEmpty
  | b :: t => isPrefL needle (b :: t) || inL needle t

/-! ## skill_extractor.py — SkillExtractor -/

/-- `self.programming_languages` (skill_extractor.py lines 14-20). -/
def programming_languages : List String :=
  ["python", "javascript", "java", "c++", "c#", "c", "go", "rust", "swift",
   "kotlin", "scala", "ruby", "php", "typescript", "dart", "r", "matlab",
   "perl", "lua", "haskell", "clojure", "elixir", "erlang", "f#", "pascal",
   "cobol", "fortran", "assembly", "bash", "shell", "powershell", "sql",
   "html", "css", "xml", "json", "yaml", "toml"]

/-- `self.frameworks_libraries` (skill_extractor.py lines 22-30). -/
def frameworks_libraries : List String :=
  ["react", "angular", "vue", "svelte", "django", "flask", "fastapi", "express",
   "spring", "laravel", "rails", "asp.net", "blazor", "gatsby", "next.js",
   "nuxt.js", "electron", "react-native", "flutter", "ionic", "cordova",
   "tensorflow", "pytorch", "keras", "scikit-learn", "pandas", "numpy",
   "opencv", "matplotlib", "seaborn", "plotly", "d3.js", "three.js",
   "bootstrap", "tailwind", "material-ui", "ant-design", "chakra-ui",
   "jquery", "lodash", "moment.js", "axios", "redux", "mobx", "rxjs"]

/-- `self.databases` (skill_extractor.py lines 32-36). -/
def databases : List String :=
  ["mysql", "postgresql", "sqlite", "mongodb", "redis", "elasticsearch",
   "cassandra", "neo4j", "dynamodb", "firebase", "supabase", "prisma",
   "sequelize", "mongoose", "sqlalchemy", "hibernate", "entity-framework"]

/-- `self.cloud_platforms` (skill_extractor.py lines 38-42). -/
def cloud_platforms : List String :=
  ["aws", "azure", "gcp", "google-cloud", "heroku", "netlify", "vercel",
   "digitalocean", "linode", "kubernetes", "docker", "jenkins", "gitlab-ci",
   "github-actions", "travis-ci", "circleci"]

/-- `self.tools_technologies` (skill_extractor.py lines 44-52). -/
def tools_technologies : List String :=
  ["git", "github", "gitlab", "bitbucket", "jira", "confluence", "slack",
   "discord", "figma", "sketch", "adobe", "photoshop", "illustrator",
   "webpack", "vite", "parcel", "babel", "eslint", "prettier", "jest",
   "cypress", "selenium", "postman", "insomnia", "swagger", "graphql",
   "rest", "api", "microservices", "serverless", "jamstack", "pwa",
   "spa", "ssr", "ssg", "cms", "headless", "blockchain", "web3", "nft",
   "defi", "smart-contracts", "solidity", "ethereum", "bitcoin"]

/-- `self.all_technologies` — union of the four non-language sets
(skill_extractor.py lines 55-58); list concatenation is membership-equivalent
to the Python set union. -/
def all_technologies : List String :=
  frameworks_libraries ++ databases ++ cloud_platforms ++ tools_technologies

/-- Word character of the regex `\w` (ASCII range: letters, digits, underscore). -/
def wordChar (c : Char) : Bool := c.isAlphanum || c == '_'

/-- Whether a character list starts with a word character. -/
def headIsWordChar : List Char → Bool
  | [] => false
  | c :: _ => wordChar c

/-- Tokenizer state machine for `re.findall(r'\b\w+(?:[.-]\w+)*\b', text)`:
a token is a maximal run of word characters, extended across a `.` or `-`
only when a word character follows, exactly as the greedy regex matches.
`acc` holds the characters of the token currently being read, reversed. -/
def tokAux : List Char → List Char → List (List Char)
  | [], acc => if acc.isEmpty then [] else [acc.reverse]
  | c :: rest, acc =>
    if wordChar c then tokAux rest (c :: acc)
    else if (c == '.' || c == '-') && !acc.isEmpty && headIsWordChar rest then
      tokAux rest (c :: acc)
    else if acc.isEmpty then tokAux rest []
    else acc.reverse :: tokAux rest []

/-- `re.findall(r'\b\w+(?:[.-]\w+)*\b', text_lower)` (skill_extractor.py line 76). -/
def findTokens (cs : List Char) : List (List Char) := tokAux cs []

/-- The `compound_terms` list (skill_extractor.py lines 79-83). -/
def compound_terms : List String :=
  ["react-native", "next.js", "vue.js", "node.js", "asp.net",
   "material-ui", "ant-design", "chakra-ui", "github-actions",
   "gitlab-ci", "travis-ci", "google-cloud"]

/-- The `text_variations` abbreviation table (skill_extractor.py lines 98-112). -/
def text_variations : List (String × String) :=
  [("js", "javascript"), ("ts", "typescript"), ("py", "python"),
   ("cpp", "c++"), ("csharp", "c#"), ("postgres", "postgresql"),
   ("mongo", "mongodb"), ("k8s", "kubernetes"), ("tf", "tensorflow"),
   ("ml", "machine-learning"), ("ai", "artificial-intelligence"),
   ("nlp", "natural-language-processing"), ("cv", "computer-vision")]

/-- `SkillExtractor.extract_from_text` (skill_extractor.py lines 60-118):
empty input yields the empty set; otherwise the union of lexicon hits over
tokens, compound terms found as substrings, and abbreviation expansions. -/
def extract_from_text (text : String) : Finset String :=
  if text = "" then ∅
  else
    let text_lower := (strLower text).data
    let words := (findTokens text_lower).map String.mk
    let fromWords :=
      words.filter (fun w => all_technologies.contains w || programming_languages.contains w)
    let fromCompounds := compound_terms.filter (fun t => inL t.data text_lower)
    let fromVariations :=
      words.filterMap (fun w => (text_variations.find? (fun kv => kv.1 == w)).map (·.2))
    (fromWords ++ fromCompounds ++ fromVariations).toFinset

/-- `SkillExtractor.is_programming_language` (skill_extractor.py lines 120-122). -/
def is_programming_language (tech : String) : Bool :=
  programming_languages.contains (strLower tech)

/-- `SkillExtractor.is_technology` (skill_extractor.py lines 124-127). -/
def is_technology (tech : String) : Bool :=
  all_technologies.contains (strLower tech) || programming_languages.contains (strLower tech)

/-! ## models.py — data models -/

/-- `UserSkills` (models.py lines 8-13). `github_stats` maps metadata names to
numbers; its values never influence any computation modelled here. -/
structure UserSkills where
  languages : List String
  technologies : List String
  experience_level : String
  github_stats : Option (List (String × ℚ)) := none

/-- `GitHubIssue` (models.py lines 15-29). `relevance_score` is a float in the
source; every value the scorer produces is a finite sum of halves, represented
exactly, so `ℚ` is used. -/
structure GitHubIssue where
  id : Int
  number : Int
  title : String
  body : String
  url : String
  repository_name : String
  repository_url : String
  labels : List String
  created_at : String
  updated_at : String
  difficulty : String
  matched_skills : List String
  relevance_score : ℚ

/-- `SkillMatchRequest` (models.py lines 31-39). Optional fields keep their
raw `Option` form; the handler applies Python `or`-defaulting itself. -/
structure SkillMatchRequest where
  skills : List String
  experience_level : Option String := some "intermediate"
  issue_types : Option (List String) := some ["good first issue", "help wanted"]
  max_results : Option Nat := some 20

/-- `IssueMatchResponse` (models.py lines 50-57). -/
structure IssueMatchResponse where
  success : Bool
  issues : List GitHubIssue
  total_found : Nat
  user_skills : Option UserSkills := none
  message : String
  error : Option String := none

/-! ## github_analyzer.py — GitHubAnalyzer

The analyzer consumes data fetched from the GitHub API. That external data is
modelled as explicit inputs: `RepoData` holds what the analyzer reads from one
repository and `UserData` what it reads from the user record. Per-item API
failures (caught and skipped in the source) do not arise in the pure embedding,
whose inputs are already-fetched values. -/

/-- Data the analyzer reads from one repository. `updated_days_ago` is
`(user.updated_at - repo.updated_at).days`, `none` when `repo.updated_at` is
falsy. `language_bytes` is the key list of `repo.get_languages()`. -/
structure RepoData where
  name : String
  description : Option String
  topics : List String
  language_bytes : List String
  updated_days_ago : Option Int

/-- Data the analyzer reads from the user record. `account_age_days` is
`(user.updated_at - user.created_at).days`. -/
structure UserData where
  bio : Option String
  public_repos : Nat
  followers : Nat
  following : Nat
  account_age_days : Int
  repos : List RepoData

/-- `GitHubAnalyzer._extract_languages` (github_analyzer.py lines 80-94):
collect lower-cased language names over all repositories, skipping empty
names and the markup languages "html"/"css". -/
def extract_languages (repos : List RepoData) : Finset String :=
  repos.foldl
    (fun acc r =>
      acc ∪ ((r.language_bytes.filter
        (fun lang => !(lang == "") && !(["html", "css"].contains (strLower lang)))).map
          strLower).toFinset)
    ∅

/-- `GitHubAnalyzer._extract_technologies` (github_analyzer.py lines 96-122):
union over repositories of classifier output on the name, on a non-empty
description, and of lower-cased topics recognised by `is_technology`. -/
def extract_technologies (repos : List RepoData) : Finset String :=
  repos.foldl
    (fun acc r =>
      ((acc ∪ extract_from_text r.name)
        ∪ (match r.description with
           | none => ∅
           | some d => if d = "" then ∅ else extract_from_text d))
        ∪ ((r.topics.filter (fun t => is_technology t)).map strLower).toFinset)
    ∅

/-- `GitHubAnalyzer._estimate_experience_level` (github_analyzer.py
lines 124-177), the successful path: additive score over account age,
repository count, followers and recent activity, then thresholded to a tier. -/
def estimate_experience_level (user : UserData) (repos : List RepoData) : String :=
  let account_age : ℚ := (user.account_age_days : ℚ) / 365.25
  let total_repos := user.public_repos
  let followers := user.followers
  let score : ℕ :=
    (if account_age ≥ 5 then 3 else if account_age ≥ 2 then 2
     else if account_age ≥ 1 then 1 else 0)
  let score := score +
    (if total_repos ≥ 50 then 3 else if total_repos ≥ 20 then 2
     else if total_repos ≥ 5 then 1 else 0)
  let score := score +
    (if followers ≥ 100 then 2 else if followers ≥ 20 then 1 else 0)
  let active_repos := (repos.take 10).filter
    (fun r => match r.updated_days_ago with
              | some d => d ≤ 365
              | none => false)
  let score := score +
    (if active_repos.length ≥ 5 then 2 else if active_repos.length ≥ 2 then 1 else 0)
  if score ≥ 8 then "expert"
  else if score ≥ 5 then "advanced"
  else if score ≥ 2 then "intermediate"
  else "beginner"

/-- The `try`/`except` wrapper around `_estimate_experience_level`: any
upstream data failure (modelled as `Except.error`) yields "intermediate". -/
def estimate_experience_level_safe : Except Unit (UserData × List RepoData) → String
  | .error _ => "intermediate"
  | .ok (u, rs) => estimate_experience_level u rs

/-- `GitHubAnalyzer._extract_skills_from_bio` (github_analyzer.py
lines 179-200): classify the bio, then route each tag to languages when
`is_programming_language` holds and to technologies otherwise. -/
def extract_skills_from_bio (bio : String) : Finset String × Finset String :=
  if bio = "" then (∅, ∅)
  else
    let extracted := extract_from_text bio
    (extracted.filter (fun t => is_programming_language t = true),
     extracted.filter (fun t => ¬ is_programming_language t = true))

/-- Result of `GitHubAnalyzer.analyze_user_skills`: the source builds a
`UserSkills` whose `languages`/`technologies` lists come from Python sets
(`list(all_languages)`, unspecified order); the sets themselves are kept. -/
structure AnalyzedSkills where
  languages : Finset String
  technologies : Finset String
  experience_level : String

/-- `GitHubAnalyzer.analyze_user_skills` (github_analyzer.py lines 29-78):
take the 50 most recent repositories, fail (`None`) when there are none,
else combine repository-derived and bio-derived skills. -/
def analyze_user_skills (u : UserData) : Option AnalyzedSkills :=
  let repos := u.repos.take 50
  if repos.isEmpty then none
  else
    let languages := extract_languages repos
    let technologies := extract_technologies repos
    let experience_level := estimate_experience_level u repos
    let bio_skills := extract_skills_from_bio ((u.bio).getD "")
    some { languages := languages ∪ bio_skills.1
           technologies := technologies ∪ bio_skills.2
           experience_level := experience_level }

/-! ## issue_matcher.py — IssueMatcher -/

/-- `IssueMatcher._determine_difficulty` (issue_matcher.py lines 237-266):
label equality cascade (against the lower-cased label list), then a body
substring scan — the beginner indicator set before the expert one, matching
the insertion order of the `complexity_indicators` dict — then the default. -/
def determine_difficulty (labels : List String) (body : String) : String :=
  let labels_lower := labels.map strLower
  let body_lower := (strLower body).data
  if ["good first issue", "beginner", "easy", "starter"].any
      (fun l => labels_lower.contains l) then "beginner"
  else if ["intermediate", "medium"].any (fun l => labels_lower.contains l) then
    "intermediate"
  else if ["hard", "expert", "complex", "difficult"].any
      (fun l => labels_lower.contains l) then "expert"
  else if ["help wanted"].any (fun l => labels_lower.contains l) then "intermediate"
  else if ["bug"].any (fun l => labels_lower.contains l) then "intermediate"
  else if ["enhancement", "feature"].any (fun l => labels_lower.contains l) then
    "intermediate"
  else if ["simple", "easy", "basic", "straightforward", "minor"].any
      (fun k => inL k.data body_lower) then "beginner"
  else if ["complex", "advanced", "architecture", "performance", "optimization",
      "refactor"].any (fun k => inL k.data body_lower) then "expert"
  else "intermediate"

/-- Loop body of `IssueMatcher._remove_duplicates` (issue_matcher.py
lines 268-278); `seen` is the `seen_ids` set, modelled as the list of ids
added so far. -/
def removeDupsAux : List Int → List GitHubIssue → List GitHubIssue
  | _, [] => []
  | seen, i :: rest =>
    if seen.contains i.id then removeDupsAux seen rest
    else i :: removeDupsAux (i.id :: seen) rest

/-- `IssueMatcher._remove_duplicates` (issue_matcher.py lines 268-278). -/
def remove_duplicates (issues : List GitHubIssue) : List GitHubIssue :=
  removeDupsAux [] issues

/-- The lower-cased `content = (issue.title + " " + issue.body).lower()`
(issue_matcher.py line 289), as a character list. -/
def contentOf (issue : GitHubIssue) : List Char :=
  lowersL (issue.title ++ " " ++ issue.body).data

/-- Per-label bonus of the label-based scoring block (issue_matcher.py
lines 301-311): an `if`/`elif` cascade, so the first matching category wins. -/
def labelBonus (skills : UserSkills) (label : String) : ℚ :=
  let label_lower := (strLower label).data
  if inL "good first issue".data label_lower
      && (["beginner", "intermediate"].contains skills.experience_level) then 3
  else if inL "help wanted".data label_lower then 2
  else if inL "bug".data label_lower then 1
  else if inL "enhancement".data label_lower || inL "feature".data label_lower then 3/2
  else 0

/-- Total label-based score: the loop `for label in issue.labels` adds the
per-label bonus once per occurrence of the label in the list. -/
def labelScore (skills : UserSkills) (labels : List String) : ℚ :=
  (labels.map (labelBonus skills)).sum

/-- Difficulty-alignment bonus (issue_matcher.py lines 313-318). -/
def difficultyBonus (difficulty experience : String) : ℚ :=
  if difficulty == experience then 2
  else if (difficulty == "beginner"
            && (experience == "intermediate" || experience == "advanced"))
       || (difficulty == "intermediate"
            && (experience == "advanced" || experience == "expert")) then 1
  else 0

/-- Recency bonus (issue_matcher.py lines 320-329). Timestamp parsing and the
current time are external; they are abstracted as a `clock` that returns the
age in days, `none` on a malformed timestamp — the `except: pass` then skips
the bonus. -/
def recencyBonus (daysOld : Option Int) : ℚ :=
  match daysOld with
  | none => 0
  | some d => if d ≤ 7 then 1 else if d ≤ 30 then 1/2 else 0

/-- Relevance score of one issue (`IssueMatcher._score_issues` body,
issue_matcher.py lines 282-331): 2.0 per profile language whose lower-cased
text occurs in the content, 1.5 per profile technology likewise, plus the
label, difficulty-alignment and recency bonuses. The loops add their bonus
once per list element, so duplicated skills count repeatedly. -/
def scoreIssue (clock : String → Option Int) (skills : UserSkills)
    (issue : GitHubIssue) : ℚ :=
  2 * (skills.languages.countP
        (fun l => inL (strLower l).data (contentOf issue)) : ℚ)
    + 3/2 * (skills.technologies.countP
        (fun t => inL (strLower t).data (contentOf issue)) : ℚ)
    + labelScore skills issue.labels
    + difficultyBonus issue.difficulty skills.experience_level
    + recencyBonus (clock issue.updated_at)

/-- `matched_skills` assembled by `_score_issues`: the set of profile
languages and technologies found in the content. The source materialises the
Python set with `list(...)` in unspecified order; a canonical order
(languages first, then technologies, first occurrence kept) is fixed here. -/
def matchedSkillsOf (skills : UserSkills) (issue : GitHubIssue) : List String :=
  let content := contentOf issue
  (skills.languages.filter (fun l => inL (strLower l).data content)
    ++ skills.technologies.filter (fun t => inL (strLower t).data content)).dedup

/-- `IssueMatcher._score_issues` (issue_matcher.py lines 280-334): each issue
gets its `relevance_score` and `matched_skills` updated; the in-place mutation
of the Python source becomes a record update. -/
def score_issues (clock : String → Option Int) (issues : List GitHubIssue)
    (skills : UserSkills) : List GitHubIssue :=
  issues.map (fun issue =>
    { issue with
        relevance_score := scoreIssue clock skills issue
        matched_skills := matchedSkillsOf skills issue })

/-- `scored_issues.sort(key=lambda x: x.relevance_score, reverse=True)`
(issue_matcher.py line 82): Python's sort is stable, and `reverse=True`
preserves the original order of equal keys, which is exactly `mergeSort`
with the reflexive comparison `b.relevance_score ≤ a.relevance_score`. -/
def sortDescByScore (issues : List GitHubIssue) : List GitHubIssue :=
  issues.mergeSort (fun a b => decide (b.relevance_score ≤ a.relevance_score))

/-- The ranking tail of `IssueMatcher.find_matching_issues` (issue_matcher.py
lines 81-83): sort by score descending, return the first `max_results`. -/
def rankIssues (issues : List GitHubIssue) (max_results : Nat) : List GitHubIssue :=
  (sortDescByScore issues).take max_results

/-! ## mcp_server.py — the /match-issues-by-skills handler -/

/-- Python exception values relevant to the handler: FastAPI's
`HTTPException(status_code, detail)` (a subclass of `Exception`) and any
other exception, carrying its message. -/
inductive PyExc where
  | http (status : Nat) (detail : String)
  | other (msg : String)

/-- Python `str(e)`; for `HTTPException` Starlette renders
`f"{status_code}: {detail}"`. -/
def strOfExc : PyExc → String
  | .http status detail => toString status ++ ": " ++ detail
  | .other msg => msg

/-- Python `x or default` for an optional string (`None` and `""` are falsy). -/
def orDefaultStr (x : Option String) (d : String) : String :=
  match x with
  | none => d
  | some s => if s = "" then d else s

/-- Python `x or default` for an optional list (`None` and `[]` are falsy). -/
def orDefaultList (x : Option (List String)) (d : List String) : List String :=
  match x with
  | none => d
  | some l => if l.isEmpty then d else l

/-- Python `x or default` for an optional number (`None` and `0` are falsy). -/
def orDefaultNat (x : Option Nat) (d : Nat) : Nat :=
  match x with
  | none => d
  | some n => if n = 0 then d else n

/-- The `try` block of the `match_issues_by_skills` handler (mcp_server.py
lines 46-67). `find` abstracts `IssueMatcher.find_matching_issues`, which
performs external I/O (and itself catches all exceptions, returning `[]`). -/
def matchIssuesBySkillsTry
    (find : UserSkills → List String → Nat → List GitHubIssue)
    (req : SkillMatchRequest) : Except PyExc IssueMatchResponse :=
  if req.skills.isEmpty then
    .error (.http 400 "Skills list cannot be empty")
  else
    let user_skills : UserSkills :=
      { languages := req.skills
        technologies := []
        experience_level := orDefaultStr req.experience_level "intermediate" }
    let issues := find user_skills
      (orDefaultList req.issue_types ["good first issue", "help wanted"])
      (orDefaultNat req.max_results 20)
    .ok { success := true
          issues := issues
          total_found := issues.length
          message := "Found " ++ toString issues.length ++ " matching issues" }

/-- The full `match_issues_by_skills` handler (mcp_server.py lines 43-71):
the `try` block followed by `except Exception as e: raise
HTTPException(status_code=500, detail=str(e))`. There is no prior
`except HTTPException: raise` arm in this handler, so the blanket
`except Exception` also catches the `HTTPException` raised in the `try`
block (it is an `Exception` subclass). -/
def matchIssuesBySkills
    (find : UserSkills → List String → Nat → List GitHubIssue)
    (req : SkillMatchRequest) : Except PyExc IssueMatchResponse :=
  match matchIssuesBySkillsTry find req with
  | .ok r => .ok r
  | .error e => .error (.http 500 (strOfExc e))

/-! ## Specification-side definitions

These definitions are transcribed from the wording of spec.md, to be compared
with the source-side definitions above. -/

/-- Spec §4.5 Step 2, transcribed from its words: the eight-step
label-priority cascade, first match wins, case-insensitive, body keyword sets
scanned beginner-before-expert, default intermediate. -/
def difficultySpec (labels : List String) (body : String) : String :=
  let ll := labels.map strLower
  let bl := (strLower body).data
  if ll.any (fun l => ["good first issue", "beginner", "easy", "starter"].contains l)
    then "beginner"
  else if ll.any (fun l => ["intermediate", "medium"].contains l) then "intermediate"
  else if ll.any (fun l => ["hard", "expert", "complex", "difficult"].contains l)
    then "expert"
  else if ll.contains "help wanted" then "intermediate"
  else if ll.contains "bug" then "intermediate"
  else if ll.contains "enhancement" || ll.contains "feature" then "intermediate"
  else if ["simple", "easy", "basic", "straightforward", "minor"].any
      (fun k => inL k.data bl) then "beginner"
  else if ["complex", "advanced", "architecture", "performance", "optimization",
      "refactor"].any (fun k => inL k.data bl) then "expert"
  else "intermediate"

/-- Claim C1's reading of the label-based scoring, transcribed from the spec's
words: the four category bonuses are independent and additive, so a single
label contributes every applicable bonus. -/
def labelBonusClaimed (skills : UserSkills) (label : String) : ℚ :=
  let label_lower := (strLower label).data
  (if inL "good first issue".data label_lower
      && (["beginner", "intermediate"].contains skills.experience_level)
   then (3 : ℚ) else 0)
  + (if inL "help wanted".data label_lower then (2 : ℚ) else 0)
  + (if inL "bug".data label_lower then (1 : ℚ) else 0)
  + (if inL "enhancement".data label_lower || inL "feature".data label_lower
     then (3/2 : ℚ) else 0)

/-- Total label-based score under claim C1's independent-additive reading. -/
def labelScoreClaimed (skills : UserSkills) (labels : List String) : ℚ :=
  (labels.map (labelBonusClaimed skills)).sum

/-- The four label categories in cascade order, each with its guard and its
bonus, for the amended form of claim C1. -/
def labelCategories (skills : UserSkills) (label : String) : List (Bool × ℚ) :=
  let label_lower := (strLower label).data
  [(inL "good first issue".data label_lower
      && (["beginner", "intermediate"].contains skills.experience_level), 3),
   (inL "help wanted".data label_lower, 2),
   (inL "bug".data label_lower, 1),
   (inL "enhancement".data label_lower || inL "feature".data label_lower, 3/2)]

/-- Amended per-label bonus: the bonus of the first category whose guard
holds, 0 when none does (mutually exclusive, first match wins). -/
def labelBonusAmended (skills : UserSkills) (label : String) : ℚ :=
  match (labelCategories skills label).find? (fun c => c.1) with
  | some c => c.2
  | none => 0

/-- Spec §4.2, transcribed from its words: the additive experience point
scale and the tier thresholds. -/
def specExperiencePoints (accountAge : ℚ) (repoCount followerCount activeCount : ℕ) : ℕ :=
  (if accountAge ≥ 5 then 3 else if accountAge ≥ 2 then 2
   else if accountAge ≥ 1 then 1 else 0)
  + (if repoCount ≥ 50 then 3 else if repoCount ≥ 20 then 2
     else if repoCount ≥ 5 then 1 else 0)
  + (if followerCount ≥ 100 then 2 else if followerCount ≥ 20 then 1 else 0)
  + (if activeCount ≥ 5 then 2 else if activeCount ≥ 2 then 1 else 0)

/-- Spec §4.2 tier mapping: ≥8 expert, ≥5 advanced, ≥2 intermediate,
else beginner. -/
def specTierOf (score : ℕ) : String :=
  if score ≥ 8 then "expert"
  else if score ≥ 5 then "advanced"
  else if score ≥ 2 then "intermediate"
  else "beginner"

/-- The recent-activity count named by spec §4.2: repositories updated within
the last 365 days among the most-recent 10 considered. -/
def activeRepoCount (repos : List RepoData) : ℕ :=
  ((repos.take 10).filter
    (fun r => match r.updated_days_ago with
              | some d => d ≤ 365
              | none => false)).length

/-- Every `GitHubIssue` field except the two the scorer writes
(`relevance_score`, `matched_skills`). -/
def frameOf (i : GitHubIssue) :
    Int × Int × String × String × String × String × String × List String
      × String × String × String :=
  (i.id, i.number, i.title, i.body, i.url, i.repository_name, i.repository_url,
   i.labels, i.created_at, i.updated_at, i.difficulty)

/-- Relevance score of an issue whose difficulty is (re)derived from its
current labels and body by `_determine_difficulty`, as in the retrieval
pipeline (`_convert_to_github_issue` sets `difficulty` from labels and body,
`_score_issues` then reads it). -/
def scoreRecomputed (clock : String → Option Int) (skills : UserSkills)
    (issue : GitHubIssue) : ℚ :=
  scoreIssue clock skills
    { issue with difficulty := determine_difficulty issue.labels issue.body }

/-- Concrete profile used by witness instantiations. -/
def skillsW : UserSkills :=
  { languages := ["python"], technologies := [], experience_level := "beginner" }

/-- A profile with no skills and beginner experience, used as concrete input. -/
def skillsBeg : UserSkills :=
  { languages := [], technologies := [], experience_level := "beginner" }

/-- Concrete issue used by witness instantiations. -/
def issueW : GitHubIssue :=
  { id := 1, number := 7, title := "Fix bug", body := "", url := "u",
    repository_name := "o/r", repository_url := "ru", labels := [],
    created_at := "2024-01-01T00:00:00Z", updated_at := "2024-01-02T00:00:00Z",
    difficulty := "intermediate", matched_skills := [], relevance_score := 0 }

/-! ## Helper lemmas -/

theorem isPrefL_append {n h : List Char} (e : List Char)
    (hp : isPrefL n h = true) : isPrefL n (h ++ e) = true := by
  induction n generalizing h with
  | nil => rfl
  | cons a as ih =>
    cases h with
    | nil => simp [isPrefL] at hp
    | cons b bs =>
      simp only [isPrefL, Bool.and_eq_true] at hp
      simp only [List.cons_append, isPrefL, Bool.and_eq_true]
      exact ⟨hp.1, ih hp.2⟩

theorem inL_nil_left (l : List Char) : inL [] l = true := by
  cases l with
  | nil => rfl
  | cons b t => simp [inL, isPrefL]

theorem inL_append {n h : List Char} (e : List Char)
    (hi : inL n h = true) : inL n (h ++ e) = true := by
  induction h with
  | nil =>
    have : n = [] := by simpa [inL, List.isEmpty_iff] using hi
    subst this
    simpa using inL_nil_left e
  | cons b t ih =>
    simp only [inL, Bool.or_eq_true] at hi
    rcases hi with hp | ht
    · have := isPrefL_append e hp
      simp only [List.cons_append, inL, Bool.or_eq_true]
      left
      simpa [List.cons_append] using this
    · simp only [List.cons_append, inL, Bool.or_eq_true]
      right
      exact ih ht

theorem countP_succ_of_witness {α : Type} {l : List α} {p q : α → Bool}
    (hmono : ∀ x ∈ l, p x = true → q x = true) {a : α} (ha : a ∈ l)
    (hpa : p a = false) (hqa : q a = true) :
    l.countP p + 1 ≤ l.countP q := by
  induction l with
  | nil => cases ha
  | cons b t ih =>
    have hmono' : ∀ x ∈ t, p x = true → q x = true :=
      fun x hx => hmono x (List.mem_cons_of_mem b hx)
    rcases List.mem_cons.mp ha with rfl | hat
    · rw [List.countP_cons_of_neg _ _ (by simp [hpa]),
        List.countP_cons_of_pos _ _ (by simp [hqa])]
      have := List.countP_mono_left hmono'
      omega
    · have h1 := ih hmono' hat
      rcases hb : p b with _ | _
      · rw [List.countP_cons_of_neg _ _ (by simp [hb]), List.countP_cons]
        split <;> omega
      · rw [List.countP_cons_of_pos _ _ (by simp [hb]),
          List.countP_cons_of_pos _ _ (by simp [hmono b (List.mem_cons_self b t) hb])]
        omega

theorem difficultyBonus_nonneg (d e : String) : 0 ≤ difficultyBonus d e := by
  unfold difficultyBonus
  split
  · norm_num
  · split <;> norm_num

theorem difficultyBonus_le_two (d e : String) : difficultyBonus d e ≤ 2 := by
  unfold difficultyBonus
  split
  · norm_num
  · split <;> norm_num

theorem anyContainsComm (xs ys : List String) :
    xs.any (fun x => ys.contains x) = ys.any (fun y => xs.contains y) := by
  rw [Bool.eq_iff_iff]
  simp only [List.any_eq_true, List.contains_iff_exists_mem_beq, beq_iff_eq]
  constructor
  · rintro ⟨x, hx1, y, hy1, rfl⟩
    exact ⟨x, hy1, x, hx1, rfl⟩
  · rintro ⟨y, hy1, x, hx1, rfl⟩
    exact ⟨y, hx1, y, hy1, rfl⟩

/-! ## Claim theorems -/

/-- C4: difficulty classification of every issue follows the spec's
label-priority cascade (first match wins, case-insensitive, body keyword sets
scanned beginner-before-expert, default intermediate); in particular an issue
labeled exactly ["good first issue"] classifies as beginner regardless of the
body. -/
theorem determine_difficulty_follows_cascade :
    (∀ (labels : List String) (body : String),
      determine_difficulty labels body = difficultySpec labels body)
    ∧ ∀ body : String,
        determine_difficulty ["good first issue"] body = "beginner" := by
  constructor
  · intro labels body
    unfold determine_difficulty difficultySpec
    simp only [anyContainsComm, List.any_cons, List.any_nil, Bool.or_false]
  · intro body
    rfl

/-- C9: the technology classifier is deterministic and idempotent — two runs
of `extract_from_text` on equal input (including the empty string) yield
identical tag sets; the embedding is a pure function, so it has no side
effects and performs no I/O. -/
theorem extract_deterministic :
    ∀ (text : String) (run1 run2 : Finset String),
      run1 = extract_from_text text → run2 = extract_from_text text →
        run1 = run2 := by
  intro text run1 run2 h1 h2
  rw [h1, h2]

/-- Witness for C9 at the empty string. -/
theorem extract_deterministic_witness :
    extract_from_text "" = ∅ ∧ extract_from_text "" = extract_from_text "" :=
  ⟨rfl, extract_deterministic "" (extract_from_text "") (extract_from_text "") rfl rfl⟩

/-- C10: the scoring pass writes only `relevance_score` and `matched_skills`;
every other field of every issue is unchanged, and the output has the same
issues in the same order and the same length as the input. -/
theorem score_issues_frame :
    ∀ (clock : String → Option Int) (issues : List GitHubIssue)
      (skills : UserSkills),
      (score_issues clock issues skills).length = issues.length
      ∧ (score_issues clock issues skills).map frameOf = issues.map frameOf := by
  intro clock issues skills
  refine ⟨by simp [score_issues], ?_⟩
  unfold score_issues
  rw [List.map_map]
  rfl

/-- C7: the experience estimator computes the additive score of spec §4.2
(age / repo count / followers / recent activity among the most-recent 10
repositories) and maps the total through the ≥8/≥5/≥2 tier thresholds; on
any upstream data failure it returns "intermediate". -/
theorem experience_estimator_spec :
    (∀ (u : UserData) (repos : List RepoData),
      estimate_experience_level u repos
        = specTierOf (specExperiencePoints ((u.account_age_days : ℚ) / 365.25)
            u.public_repos u.followers (activeRepoCount repos)))
    ∧ ∀ e : Unit, estimate_experience_level_safe (.error e) = "intermediate" := by
  constructor
  · intro u repos
    rfl
  · intro e
    rfl

theorem removeDupsAux_sublist (seen : List Int) (issues : List GitHubIssue) :
    List.Sublist (removeDupsAux seen issues) issues := by
  induction issues generalizing seen with
  | nil => exact List.Sublist.refl _
  | cons i rest ih =>
    unfold removeDupsAux
    split
    · exact (ih seen).cons i
    · exact (ih (i.id :: seen)).cons₂ i

theorem removeDupsAux_filter (seen : List Int) (issues : List GitHubIssue)
    (n : Int) :
    (removeDupsAux seen issues).filter (fun i => decide (i.id = n))
      = if seen.contains n then []
        else (issues.filter (fun i => decide (i.id = n))).take 1 := by
  induction issues generalizing seen with
  | nil => simp [removeDupsAux]
  | cons i rest ih =>
    unfold removeDupsAux
    by_cases hc : seen.contains i.id = true
    · rw [if_pos hc, ih seen]
      by_cases hn : i.id = n
      · subst hn
        rw [if_pos hc, if_pos hc]
      · rw [List.filter_cons_of_neg (by simp [hn])]
    · rw [if_neg hc]
      by_cases hn : i.id = n
      · subst hn
        rw [if_neg hc, List.filter_cons_of_pos (by simp),
          List.filter_cons_of_pos (by simp), ih (i.id :: seen),
          if_pos (by simp [List.contains_cons]), List.take_succ_cons,
          List.take_zero]
      · rw [List.filter_cons_of_neg (by simp [hn]),
          List.filter_cons_of_neg (by simp [hn]), ih (i.id :: seen)]
        have hne : (n == i.id) = false :=
          beq_eq_false_iff_ne.mpr (fun h => hn h.symm)
        rw [List.contains_cons, hne, Bool.false_or]

/-- C6: deduplication keeps exactly one entry per distinct id — the first
occurrence in input order — and preserves first-seen order across the output
(the output is a sublist of the input). -/
theorem remove_duplicates_first_occurrence :
    ∀ issues : List GitHubIssue,
      List.Sublist (remove_duplicates issues) issues
      ∧ (∀ n : Int,
          (remove_duplicates issues).filter (fun i => decide (i.id = n))
            = (issues.filter (fun i => decide (i.id = n))).take 1)
      ∧ ∀ n : Int, (∃ i ∈ issues, i.id = n) →
          ((remove_duplicates issues).filter (fun i => decide (i.id = n))).length
            = 1 := by
  intro issues
  have hfilter : ∀ n : Int,
      (remove_duplicates issues).filter (fun i => decide (i.id = n))
        = (issues.filter (fun i => decide (i.id = n))).take 1 := by
    intro n
    unfold remove_duplicates
    rw [removeDupsAux_filter]
    rfl
  refine ⟨removeDupsAux_sublist [] issues, hfilter, ?_⟩
  intro n hn
  rw [hfilter n]
  obtain ⟨i, hi, rfl⟩ := hn
  have hmem : i ∈ issues.filter (fun j => decide (j.id = i.id)) :=
    List.mem_filter.mpr ⟨hi, by simp⟩
  rcases hlist : issues.filter (fun j => decide (j.id = i.id)) with _ | ⟨a, t⟩
  · rw [hlist] at hmem
    cases hmem
  · rw [hlist]
    rfl

/-- Witness for C6 at a concrete one-element list. -/
theorem remove_duplicates_first_occurrence_witness :
    ((remove_duplicates [issueW]).filter (fun i => decide (i.id = 1))).length
      = 1 :=
  (remove_duplicates_first_occurrence [issueW]).2.2 1
    ⟨issueW, List.mem_cons_self issueW [], rfl⟩

theorem labelBonus_eq_amended (skills : UserSkills) (label : String) :
    labelBonus skills label = labelBonusAmended skills label := by
  unfold labelBonus labelBonusAmended labelCategories
  by_cases e1 : skills.experience_level = "beginner" <;>
  by_cases e2 : skills.experience_level = "intermediate" <;>
  rcases g1 : inL "good first issue".data (strLower label).data with _ | _ <;>
  rcases g2 : inL "help wanted".data (strLower label).data with _ | _ <;>
  rcases g3 : inL "bug".data (strLower label).data with _ | _ <;>
  rcases g4 : inL "enhancement".data (strLower label).data with _ | _ <;>
  rcases g5 : inL "feature".data (strLower label).data with _ | _ <;>
  simp [g1, g2, g3, g4, g5, e1, e2, List.find?]

/-- C1 (amended): in the label-based scoring the four category bonuses are
mutually exclusive per label — the `if`/`elif` cascade awards only the first
matching category (good-first-issue with the experience check, then
help-wanted, then bug, then enhancement/feature) — while remaining additive
across the labels of the list, once per occurrence. -/
theorem labelScore_first_match_only :
    ∀ (skills : UserSkills) (labels : List String),
      labelScore skills labels
        = (labels.map (labelBonusAmended skills)).sum := by
  intro skills labels
  unfold labelScore
  exact congrArg List.sum
    (List.map_congr_left (fun a _ => labelBonus_eq_amended skills a))

/-- Counterexample to C1 as stated: the label "enhancement bug" matches both
the bug category (+1.0) and the enhancement/feature category (+1.5); the
claimed independent-additive reading gives 2.5, but the code's cascade stops
at the bug branch and gives 1.0. -/
theorem labelScore_additive_refuted :
    labelScore skillsBeg ["enhancement bug"] = 1
    ∧ labelScoreClaimed skillsBeg ["enhancement bug"] = 5/2
    ∧ labelScore skillsBeg ["enhancement bug"]
        ≠ labelScoreClaimed skillsBeg ["enhancement bug"] := by
  have hgfi : inL "good first issue".data (strLower "enhancement bug").data
      = false := by decide
  have hhw : inL "help wanted".data (strLower "enhancement bug").data
      = false := by decide
  have hbug : inL "bug".data (strLower "enhancement bug").data = true := by decide
  have henh : inL "enhancement".data (strLower "enhancement bug").data
      = true := by decide
  have v1 : labelScore skillsBeg ["enhancement bug"] = 1 := by
    simp [labelScore, labelBonus, skillsBeg, hgfi, hhw, hbug, henh]
  have v2 : labelScoreClaimed skillsBeg ["enhancement bug"] = 5/2 := by
    simp [labelScoreClaimed, labelBonusClaimed, skillsBeg, hgfi, hhw, hbug, henh]
    norm_num
  exact ⟨v1, v2, by rw [v1, v2]; norm_num⟩

/-- C2 (amended): only the bio-derived classification routes each tag to
exactly one of the two sets — the languages and technologies produced by
`_extract_skills_from_bio` are disjoint. (The full profile need not satisfy
the invariant: repository-derived technologies may contain language tags.) -/
theorem bio_split_disjoint :
    ∀ bio : String,
      (extract_skills_from_bio bio).1 ∩ (extract_skills_from_bio bio).2 = ∅ := by
  intro bio
  unfold extract_skills_from_bio
  split
  · simp
  · ext t
    simp only [Finset.mem_inter, Finset.mem_filter, Finset.not_mem_empty,
      iff_false, not_and]
    tauto

/-- Counterexample to C2 as stated: a user whose single repository is named
"python" and contains Python code gets "python" in both the languages set
(from the per-repository language breakdown) and the technologies set (the
classifier output over the repository name includes programming-language
tags, and no reclassification is applied on the repository path). -/
theorem profile_tag_overlap_example :
    (analyze_user_skills
        { bio := none, public_repos := 1, followers := 0, following := 0,
          account_age_days := 0,
          repos := [{ name := "python", description := none, topics := [],
                      language_bytes := ["Python"], updated_days_ago := none }] }).map
      (fun s => decide ("python" ∈ s.languages)
        && decide ("python" ∈ s.technologies)) = some true := by
  decide

/-- C3 (code bug): for every request with an empty skills list the handler
responds 500, not 400 — the `HTTPException(400)` raised inside the `try`
block is an `Exception`, so the blanket `except Exception` catches it and
re-raises it as a 500 whose detail is `str(e)`. -/
theorem empty_skills_yields_500 :
    ∀ (find : UserSkills → List String → Nat → List GitHubIssue)
      (req : SkillMatchRequest),
      req.skills = [] →
      matchIssuesBySkills find req
        = .error (.http 500 "400: Skills list cannot be empty") := by
  intro find req h
  unfold matchIssuesBySkills matchIssuesBySkillsTry
  rw [h]
  rfl

/-- Witness for C3: the concrete empty-skills request. -/
theorem empty_skills_yields_500_witness :
    matchIssuesBySkills (fun _ _ _ => []) { skills := [] }
      = .error (.http 500 "400: Skills list cannot be empty") :=
  empty_skills_yields_500 (fun _ _ _ => []) { skills := [] } rfl

theorem scoreLe_trans (a b c : GitHubIssue)
    (hab : decide (b.relevance_score ≤ a.relevance_score) = true)
    (hbc : decide (c.relevance_score ≤ b.relevance_score) = true) :
    decide (c.relevance_score ≤ a.relevance_score) = true := by
  simp only [decide_eq_true_eq] at *
  exact le_trans hbc hab

theorem scoreLe_total (a b : GitHubIssue) :
    (decide (b.relevance_score ≤ a.relevance_score)
      || decide (a.relevance_score ≤ b.relevance_score)) = true := by
  simp only [Bool.or_eq_true, decide_eq_true_eq]
  exact (le_total b.relevance_score a.relevance_score)

/-- C5: the ranked output is the stable descending sort truncated to
`max_results`: it has `min max_results n` entries, is pairwise non-increasing
by `relevance_score`, and for every score value the equal-score issues of the
sorted list appear exactly in input order. -/
theorem ranking_sorted_stable_truncated :
    ∀ (issues : List GitHubIssue) (m : Nat),
      rankIssues issues m = (sortDescByScore issues).take m
      ∧ (rankIssues issues m).length = min m issues.length
      ∧ List.Pairwise
          (fun a b => b.relevance_score ≤ a.relevance_score) (rankIssues issues m)
      ∧ ∀ q : ℚ,
          (sortDescByScore issues).filter (fun i => decide (i.relevance_score = q))
            = issues.filter (fun i => decide (i.relevance_score = q)) := by
  intro issues m
  refine ⟨rfl, ?_, ?_, ?_⟩
  · simp [rankIssues, sortDescByScore]
  · have hs : List.Pairwise
        (fun a b : GitHubIssue =>
          decide (b.relevance_score ≤ a.relevance_score) = true)
        (sortDescByScore issues) :=
      @List.sorted_mergeSort GitHubIssue
        (fun a b => decide (b.relevance_score ≤ a.relevance_score))
        scoreLe_trans scoreLe_total issues
    have hs' : List.Pairwise
        (fun a b : GitHubIssue => b.relevance_score ≤ a.relevance_score)
        (sortDescByScore issues) :=
      hs.imp (fun h => by simpa using h)
    exact List.Pairwise.sublist (List.take_sublist m _) hs'
  · intro q
    set p : GitHubIssue → Bool := fun i => decide (i.relevance_score = q) with hp
    have hall : ∀ a ∈ issues.filter p, ∀ b ∈ issues.filter p,
        decide (b.relevance_score ≤ a.relevance_score) = true := by
      intro a ha b hb
      have ha' := (List.mem_filter.mp ha).2
      have hb' := (List.mem_filter.mp hb).2
      rw [hp] at ha' hb'
      simp only [decide_eq_true_eq] at ha' hb' ⊢
      rw [ha', hb']
    have hpw : List.Pairwise
        (fun a b : GitHubIssue =>
          decide (b.relevance_score ≤ a.relevance_score) = true)
        (issues.filter p) := List.pairwise_of_forall_mem_list hall
    have hsub : List.Sublist (issues.filter p) (sortDescByScore issues) :=
      List.sublist_mergeSort scoreLe_trans scoreLe_total hpw
        (List.filter_sublist issues)
    have hself : (issues.filter p).filter p = issues.filter p :=
      List.filter_eq_self.mpr (fun a ha => (List.mem_filter.mp ha).2)
    have hsub2 : List.Sublist (issues.filter p) ((sortDescByScore issues).filter p) :=
      hself ▸ hsub.filter p
    have hperm : ((sortDescByScore issues).filter p).Perm (issues.filter p) :=
      (List.mergeSort_perm issues _).filter p
    exact (hsub2.eq_of_length hperm.length_eq.symm).symm

theorem contentOf_body_append (issue : GitHubIssue) (extra : String) :
    contentOf { issue with body := issue.body ++ extra }
      = contentOf issue ++ lowersL extra.data := by
  simp [contentOf, lowersL, String.data_append, List.append_assoc]

/-- C8: adding one more matching profile language to the content of an
otherwise-fixed issue never decreases its relevance score, even though the
body change can flip the body-keyword branch of difficulty classification
(the difficulty-alignment bonus can drop from 2.0 to 0.0, but the new
language match contributes 2.0, and every other match survives the longer
content). -/
theorem score_monotone_in_added_language :
    ∀ (clock : String → Option Int) (skills : UserSkills) (issue : GitHubIssue)
      (extra L : String),
      L ∈ skills.languages →
      inL (strLower L).data (contentOf issue) = false →
      inL (strLower L).data (contentOf { issue with body := issue.body ++ extra })
        = true →
      scoreRecomputed clock skills issue
        ≤ scoreRecomputed clock skills { issue with body := issue.body ++ extra } := by
  intro clock skills issue extra L hL hOld hNew
  have hmono : ∀ s : String,
      inL (strLower s).data (contentOf issue) = true →
      inL (strLower s).data
        (contentOf { issue with body := issue.body ++ extra }) = true := by
    intro s hs
    rw [contentOf_body_append]
    exact inL_append _ hs
  have hlang : skills.languages.countP
        (fun l => inL (strLower l).data (contentOf issue)) + 1
      ≤ skills.languages.countP
        (fun l => inL (strLower l).data
          (contentOf { issue with body := issue.body ++ extra })) :=
    countP_succ_of_witness (fun x _ hx => hmono x hx) hL hOld hNew
  have htech : skills.technologies.countP
        (fun t => inL (strLower t).data (contentOf issue))
      ≤ skills.technologies.countP
        (fun t => inL (strLower t).data
          (contentOf { issue with body := issue.body ++ extra })) :=
    List.countP_mono_left (fun x _ hx => hmono x hx)
  have hlangQ : (skills.languages.countP
        (fun l => inL (strLower l).data (contentOf issue)) : ℚ) + 1
      ≤ (skills.languages.countP
        (fun l => inL (strLower l).data
          (contentOf { issue with body := issue.body ++ extra })) : ℚ) := by
    exact_mod_cast hlang
  have htechQ : (skills.technologies.countP
        (fun t => inL (strLower t).data (contentOf issue)) : ℚ)
      ≤ (skills.technologies.countP
        (fun t => inL (strLower t).data
          (contentOf { issue with body := issue.body ++ extra })) : ℚ) := by
    exact_mod_cast htech
  have hdOld : difficultyBonus (determine_difficulty issue.labels issue.body)
      skills.experience_level ≤ 2 := difficultyBonus_le_two _ _
  have hdNew : 0 ≤ difficultyBonus
      (determine_difficulty issue.labels (issue.body ++ extra))
      skills.experience_level := difficultyBonus_nonneg _ _
  unfold scoreRecomputed scoreIssue
  simp only [contentOf] at hlangQ htechQ ⊢
  linarith

/-- Witness for C8: appending the profile language "python" to the body of a
concrete issue that did not previously match it. -/
theorem score_monotone_in_added_language_witness :
    ("python" ∈ skillsW.languages)
    ∧ inL (strLower "python").data (contentOf issueW) = false
    ∧ inL (strLower "python").data
        (contentOf { issueW with body := issueW.body ++ "python" }) = true
    ∧ scoreRecomputed (fun _ => none) skillsW issueW
        ≤ scoreRecomputed (fun _ => none) skillsW
            { issueW with body := issueW.body ++ "python" } :=
  ⟨by decide, by decide, by decide,
    score_monotone_in_added_language (fun _ => none) skillsW issueW "python"
      "python" (by decide) (by decide) (by decide)⟩
